import Mathlib

/-!
Verification of the engagement-gating control loop of the
`astrbot_plugin_group_chat` plugin.

The centerpiece is the per-group "heartflow" state kept by
`WillingnessCalculator` (`src/src/willingness_calculator.py`): a record
`{energy, last_reply_ts, streak}` stored under the key `heartflow:{group_id}`.
Floats are modelled exactly as rationals; the message counts, reply lengths
and streaks are naturals, as in the source.  The two text-derived signals
that feed the numeric updates — the 60-second message count and the
continuity similarity with the last assistant reply — enter the Python
functions as intermediate values, and are passed here as parameters
(`count`, `continuity`; `continuity = none` models "no assistant reply in
the history", in which case the source skips the similarity block).
-/

namespace GroupChat

/-- Heartflow state per group, as initialised in `_hf_get_state`. -/
structure HFState where
  energy : ℚ
  last_reply_ts : ℚ
  streak : ℕ
  deriving Repr, DecidableEq

/-- Initial heartflow state created by `_hf_get_state` on first reference. -/
def hfInit : HFState := { energy := 8/10, last_reply_ts := 0, streak := 0 }

/-- `_hf_norm_count_last_seconds`: message count over the last `seconds`
normalised against an assumed max rate of 5 messages per minute. -/
def hf_norm_count_last_seconds (count : ℕ) (seconds : ℚ) : ℚ :=
  min 1 ((count : ℚ) / (seconds / 60 * 5))

/-- `_hf_on_user_msg`: recovery update on every incoming group message.
`count` is the number of history messages in the last 60 seconds, `atMe`
whether the event mentions the agent, `continuity` the similarity with the
last assistant reply (`none` when the history holds no assistant reply). -/
def hf_on_user_msg (count : ℕ) (atMe : Bool) (continuity : Option ℚ)
    (s : HFState) : HFState :=
  let e1 := min 1 (s.energy + 1/100)
  let mlm_norm := hf_norm_count_last_seconds count 60
  let e2 := min 1 (e1 + 6/100 * mlm_norm)
  let e3 := if atMe then min 1 (e2 + 10/100) else e2
  let e4 := match continuity with
    | some c => min 1 (e3 + 8/100 * c)
    | none => e3
  { s with energy := max (1/10) e4 }

/-- `on_bot_reply_update`: consumption update after a sent reply of length
`reply_len`, at time `now`. -/
def on_bot_reply_update (now : ℚ) (reply_len : ℕ) (s : HFState) : HFState :=
  let e1 := max (1/10) (s.energy - 10/100)
  let len_penalty := 5/100 * min 1 ((reply_len : ℚ) / 200)
  let e2 := max (1/10) (e1 - len_penalty)
  let streak_penalty := 4/100 * (s.streak : ℚ)
  let e3 := max (1/10) (e2 - streak_penalty)
  { energy := e3, last_reply_ts := now, streak := s.streak + 1 }

/-- `_hf_can_pass_gate`: dynamic cooldown and threshold gate (the branch for
an actual group; a missing group id short-circuits to `true` in the source
before this logic runs). -/
def hf_can_pass_gate (current_time : ℚ) (count : ℕ) (atMe : Bool)
    (continuity : Option ℚ) (s : HFState) : Bool :=
  let mlm_norm := hf_norm_count_last_seconds count 60
  let cooldown := 45 * (1 - 3/10 * mlm_norm)
  let dt := current_time - s.last_reply_ts
  if dt < cooldown then false
  else
    let t0 : ℚ := 35/100
    let t1 := if atMe then t0 - 1/10 else t0
    let t2 := match continuity with
      | some c => if 75/100 ≤ c then t1 - 5/100 else t1
      | none => t1
    let t3 := t2 + 5/100 * (s.streak : ℚ)
    let threshold := min (7/10) t3
    decide (threshold ≤ s.energy)

/-- Operations of the willingness calculator (and the one external update
that touches the per-group counters): a recovery step, a consumption step,
and the skipped-reply reset performed by
`InteractionManager.update_interaction_state`, which the source applies to
the separate `consecutive_responses` counter only. -/
inductive HFOp where
  | userMsg (count : ℕ) (atMe : Bool) (continuity : Option ℚ)
  | botReply (now : ℚ) (reply_len : ℕ)
  | skipReset

/-- Combined per-group state: the heartflow record together with the
`consecutive_responses` counter kept by the state manager. -/
structure CalcState where
  hf : HFState
  consecutive_responses : ℕ
  deriving Repr, DecidableEq

/-- Initial combined state. -/
def calcInit : CalcState := { hf := hfInit, consecutive_responses := 0 }

/-- One step of the combined state machine. -/
def apply_hf_op (op : HFOp) (s : CalcState) : CalcState :=
  match op with
  | HFOp.userMsg count atMe continuity =>
      { s with hf := hf_on_user_msg count atMe continuity s.hf }
  | HFOp.botReply now reply_len =>
      { hf := on_bot_reply_update now reply_len s.hf,
        consecutive_responses := s.consecutive_responses + 1 }
  | HFOp.skipReset => { s with consecutive_responses := 0 }

/-- Fold a sequence of operations over a state. -/
def apply_hf_ops (ops : List HFOp) (s : CalcState) : CalcState :=
  ops.foldl (fun t op => apply_hf_op op t) s

/-- The documented energy range. -/
def EnergyInRange (s : HFState) : Prop := 1/10 ≤ s.energy ∧ s.energy ≤ 1

lemma hf_on_user_msg_energy_range (count : ℕ) (atMe : Bool)
    (continuity : Option ℚ) (s : HFState) :
    EnergyInRange (hf_on_user_msg count atMe continuity s) := by
  have h : ∀ x : ℚ, max (1/10) (min 1 x) ≤ 1 :=
    fun x => max_le (by norm_num) (min_le_left _ _)
  unfold EnergyInRange hf_on_user_msg
  cases atMe <;> rcases continuity with _ | c <;>
    exact ⟨le_max_left _ _, h _⟩

lemma on_bot_reply_update_energy_range (now : ℚ) (reply_len : ℕ)
    (s : HFState) (h : s.energy ≤ 1) :
    EnergyInRange (on_bot_reply_update now reply_len s) := by
  unfold EnergyInRange on_bot_reply_update
  refine ⟨le_max_left _ _, ?_⟩
  have hlen : (0 : ℚ) ≤ 5/100 * min 1 ((reply_len : ℚ) / 200) := by positivity
  have hstreak : (0 : ℚ) ≤ 4/100 * (s.streak : ℚ) := by positivity
  simp only [max_le_iff]
  refine ⟨by norm_num, ?_⟩
  have h1 : max (1/10 : ℚ) (s.energy - 10/100) ≤ 1 := by
    simp only [max_le_iff]; constructor <;> linarith
  have h2 : max (1/10 : ℚ)
      (max (1/10) (s.energy - 10/100) - 5/100 * min 1 ((reply_len : ℚ) / 200)) ≤ 1 := by
    simp only [max_le_iff]; constructor <;> linarith
  linarith

lemma apply_hf_op_energy_range (op : HFOp) (s : CalcState)
    (h : EnergyInRange s.hf) : EnergyInRange (apply_hf_op op s).hf := by
  cases op with
  | userMsg count atMe continuity => exact hf_on_user_msg_energy_range _ _ _ _
  | botReply now reply_len => exact on_bot_reply_update_energy_range _ _ _ h.2
  | skipReset => exact h

lemma apply_hf_ops_energy_range (ops : List HFOp) (s : CalcState)
    (h : EnergyInRange s.hf) : EnergyInRange (apply_hf_ops ops s).hf := by
  induction ops generalizing s with
  | nil => exact h
  | cons op ops ih => exact ih _ (apply_hf_op_energy_range op s h)

/-- C1: starting from the initial heartflow state (energy 0.8), every
sequence of recovery updates (`_hf_on_user_msg`) and consumption updates
(`on_bot_reply_update`) — with skipped-reply resets allowed in between —
leaves the energy within [0.1, 1.0] after every update. -/
theorem energy_stays_in_range (ops : List HFOp) :
    1/10 ≤ (apply_hf_ops ops calcInit).hf.energy ∧
      (apply_hf_ops ops calcInit).hf.energy ≤ 1 :=
  apply_hf_ops_energy_range ops calcInit
    (by constructor <;> norm_num [calcInit, hfInit])

lemma max_sub_absorb (l x b : ℚ) (hb : 0 ≤ b) :
    max l (max l x - b) = max l (x - b) := by
  rcases le_total l x with h | h
  · rw [max_eq_right h]
  · rw [max_eq_left h, max_eq_left (by linarith), max_eq_left (by linarith)]

/-- C3: the consumption update leaves energy at
`max(0.1, e - 0.10 - 0.05 * min(1, L/200) - 0.04 * streak)`, sets
`last_reply_ts` to the current time and increments the streak. -/
theorem on_bot_reply_update_spec (now : ℚ) (reply_len : ℕ) (s : HFState) :
    (on_bot_reply_update now reply_len s).energy =
        max (1/10) (s.energy - 10/100 - 5/100 * min 1 ((reply_len : ℚ) / 200)
          - 4/100 * (s.streak : ℚ)) ∧
      (on_bot_reply_update now reply_len s).last_reply_ts = now ∧
      (on_bot_reply_update now reply_len s).streak = s.streak + 1 := by
  refine ⟨?_, rfl, rfl⟩
  show max (1/10) (max (1/10) (max (1/10) (s.energy - 10/100)
      - 5/100 * min 1 ((reply_len : ℚ) / 200)) - 4/100 * (s.streak : ℚ)) = _
  have hlen : (0 : ℚ) ≤ 5/100 * min 1 ((reply_len : ℚ) / 200) := by positivity
  have hstreak : (0 : ℚ) ≤ 4/100 * (s.streak : ℚ) := by positivity
  rw [max_sub_absorb _ _ _ hlen, max_sub_absorb _ _ _ hstreak]

/-- C2: the gate passes exactly when the dynamic cooldown
`45 * (1 - 0.3 * activity_norm)` has elapsed since the last reply and the
energy reaches the dynamic threshold
`min(0.7, 0.35 - 0.1·[mentioned] - 0.05·[continuity ≥ 0.75] + 0.05·streak)`;
within the cooldown it fails regardless of energy. -/
theorem hf_can_pass_gate_spec (current_time : ℚ) (count : ℕ) (atMe : Bool)
    (continuity : Option ℚ) (s : HFState) :
    hf_can_pass_gate current_time count atMe continuity s = true ↔
      (45 * (1 - 3/10 * min 1 ((count : ℚ) / 5)) ≤ current_time - s.last_reply_ts ∧
        min (7/10) (35/100 - (if atMe then 1/10 else 0)
            - (match continuity with
               | some c => if 75/100 ≤ c then (5/100 : ℚ) else 0
               | none => 0)
            + 5/100 * (s.streak : ℚ)) ≤ s.energy) := by
  unfold hf_can_pass_gate hf_norm_count_last_seconds
  have hnorm : (60 : ℚ) / 60 * 5 = 5 := by norm_num
  rw [hnorm]
  by_cases hdt : current_time - s.last_reply_ts < 45 * (1 - 3/10 * min 1 ((count : ℚ) / 5))
  · simp only [if_pos hdt]
    constructor
    · intro h; exact absurd h (by simp)
    · rintro ⟨h, -⟩; linarith
  · simp only [if_neg hdt]
    push_neg at hdt
    simp only [decide_eq_true_eq]
    constructor
    · intro h
      refine ⟨hdt, ?_⟩
      rcases continuity with _ | c <;> cases atMe <;>
        simp_all <;> convert h using 2 <;> split <;> ring
    · rintro ⟨-, h⟩
      rcases continuity with _ | c <;> cases atMe <;>
        simp_all <;> convert h using 2 <;> split <;> ring

/-- C10: the heartflow streak starts at 0, is never decreased by any
operation (it only grows, by `on_bot_reply_update`), and the skipped-reply
reset clears only the separate `consecutive_responses` counter while
leaving the heartflow record untouched. -/
theorem streak_monotone :
    calcInit.hf.streak = 0 ∧
      (∀ (op : HFOp) (s : CalcState),
        s.hf.streak ≤ (apply_hf_op op s).hf.streak) ∧
      (∀ (ops : List HFOp) (s : CalcState),
        s.hf.streak ≤ (apply_hf_ops ops s).hf.streak) ∧
      (∀ s : CalcState, (apply_hf_op HFOp.skipReset s).hf = s.hf ∧
        (apply_hf_op HFOp.skipReset s).consecutive_responses = 0) := by
  have hop : ∀ (op : HFOp) (s : CalcState),
      s.hf.streak ≤ (apply_hf_op op s).hf.streak := by
    intro op s
    cases op with
    | userMsg count atMe continuity => exact le_refl _
    | botReply now reply_len => exact Nat.le_succ _
    | skipReset => exact le_refl _
  refine ⟨rfl, hop, ?_, fun s => ⟨rfl, rfl⟩⟩
  intro ops
  induction ops with
  | nil => exact fun s => le_refl _
  | cons op ops ih => exact fun s => le_trans (hop op s) (ih (apply_hf_op op s))

/-- Python `str.strip()`: remove whitespace from both ends. -/
def pyStrip (s : String) : String :=
  ⟨((s.data.dropWhile Char.isWhitespace).reverse.dropWhile Char.isWhitespace).reverse⟩

/-- `FatigueSystem.get_fatigue_penalty` (`src/src/fatigue_system.py`):
returns 0 when the `fatigue_enabled` config flag (default true) is off,
the fixed penalty 0.5 at or above the `fatigue_threshold` config value
(default 5), and `fatigue_count * 0.05` below it. -/
def get_fatigue_penalty (fatigue_enabled : Bool) (fatigue_threshold fatigue_count : ℚ) : ℚ :=
  if fatigue_enabled = false then 0
  else if fatigue_threshold ≤ fatigue_count then 1/2
  else fatigue_count * (5/100)

/-- `WillingnessCalculator._calculate_fatigue_penalty`
(`src/src/willingness_calculator.py`): same formula, without the enabled
flag. -/
def calculate_fatigue_penalty (fatigue_threshold user_fatigue : ℚ) : ℚ :=
  if fatigue_threshold ≤ user_fatigue then 1/2
  else user_fatigue * (5/100)

/-- C5: with fatigue tracking enabled, both the `FatigueSystem` and the
`WillingnessCalculator` penalty functions return the fixed penalty 0.5 at
or above the configured threshold and the linear penalty
`fatigue * 0.05` below it. -/
theorem fatigue_penalty_spec (threshold f : ℚ) :
    (threshold ≤ f →
      get_fatigue_penalty true threshold f = 1/2 ∧
        calculate_fatigue_penalty threshold f = 1/2) ∧
    (f < threshold →
      get_fatigue_penalty true threshold f = f * (5/100) ∧
        calculate_fatigue_penalty threshold f = f * (5/100)) := by
  constructor
  · intro h
    constructor <;> simp [get_fatigue_penalty, calculate_fatigue_penalty, h]
  · intro h
    constructor <;>
      simp [get_fatigue_penalty, calculate_fatigue_penalty, not_le.mpr h]

/-- Witness for C5 at the default threshold 5: fatigue 7 is penalised 0.5,
fatigue 2 is penalised linearly. -/
theorem fatigue_penalty_spec_witness :
    ((5 : ℚ) ≤ 7 ∧ get_fatigue_penalty true 5 7 = 1/2 ∧
        calculate_fatigue_penalty 5 7 = 1/2) ∧
      ((2 : ℚ) < 5 ∧ get_fatigue_penalty true 5 2 = 2 * (5/100) ∧
        calculate_fatigue_penalty 5 2 = 2 * (5/100)) :=
  ⟨⟨by norm_num, (fatigue_penalty_spec 5 7).1 (by norm_num)⟩,
    ⟨by norm_num, (fatigue_penalty_spec 5 2).2 (by norm_num)⟩⟩

/-- `InterestEvaluator._calculate_content_length_score`
(`src/core/interest_evaluator.py`): piecewise score of the stripped
message length. -/
def calculate_content_length_score (message : String) : ℚ :=
  let length := (pyStrip message).length
  if length = 0 then 0
  else if length ≤ 5 then 2/10
  else if length ≤ 15 then 4/10
  else if length ≤ 50 then 7/10
  else if length ≤ 100 then 9/10
  else 8/10

/-- Counterexample to C7 as stated: a 45-character message — mid-length
per the claim — scores 0.7, strictly below the peak score 0.9 that a
60-character message attains, so not every 40–100-character message gets
the highest attainable score. -/
theorem content_length_score_cex :
    calculate_content_length_score
        "abcdefghijklmnopqrstuvwxyz0123456789ABCDEFGHI" = 7/10 ∧
      calculate_content_length_score
        "abcdefghijklmnopqrstuvwxyz0123456789ABCDEFGHIJKLMNOPQRSTUVWX" = 9/10 ∧
      (7/10 : ℚ) < 9/10 :=
  ⟨rfl, rfl, by norm_num⟩

/-- C7 amended: the length score is non-monotonic — stripped length below
10 scores at most 0.4, the peak 0.9 is attained exactly on stripped
lengths 51–100 (lengths 16–50 score 0.7), and lengths beyond 100 score
0.8, slightly below the peak. -/
theorem content_length_score_amended (m : String) :
    ((pyStrip m).length < 10 → calculate_content_length_score m ≤ 4/10) ∧
      (50 < (pyStrip m).length → (pyStrip m).length ≤ 100 →
        calculate_content_length_score m = 9/10) ∧
      (100 < (pyStrip m).length →
        calculate_content_length_score m = 8/10 ∧ (8/10 : ℚ) < 9/10) := by
  have hsc : calculate_content_length_score m =
      (if (pyStrip m).length = 0 then 0
        else if (pyStrip m).length ≤ 5 then 2/10
        else if (pyStrip m).length ≤ 15 then 4/10
        else if (pyStrip m).length ≤ 50 then 7/10
        else if (pyStrip m).length ≤ 100 then 9/10
        else (8/10 : ℚ)) := rfl
  rw [hsc]
  refine ⟨fun h => ?_, fun h1 h2 => ?_, fun h => ?_⟩ <;>
    split_ifs <;> first | omega | norm_num

/-- Witness for C7's amended statement on three concrete messages. -/
theorem content_length_score_amended_witness :
    calculate_content_length_score "hello" ≤ 4/10 ∧
      calculate_content_length_score
        "abcdefghijklmnopqrstuvwxyz0123456789ABCDEFGHIJKLMNOPQRSTUVW" = 9/10 ∧
      calculate_content_length_score
        "abcdefghijklmnopqrstuvwxyz0123456789ABCDEFGHIJKLMNOPQRSTUVWXYZabcdefghijklmnopqrstuvwxyz0123456789ABCDEFGHIJKLMNOPQRSTUV" = 8/10 :=
  ⟨(content_length_score_amended "hello").1 (by decide),
    (content_length_score_amended _).2.1 (by decide) (by decide),
    ((content_length_score_amended _).2.2 (by decide)).1⟩

/-- Decision record produced by `ResponseEngine._generate_with_air_reading`
(`src/src/response_engine.py`). -/
structure AirReadingDecision where
  should_reply : Bool
  content : Option String
  decision_method : String
  deriving Repr, DecidableEq

/-- Default sentinel, from
`config.get("air_reading_no_reply_marker", "[DO_NOT_REPLY]")`. -/
def air_reading_no_reply_marker : String := "[DO_NOT_REPLY]"

/-- `_generate_with_air_reading` as a function of the raw LLM response
text.  `_call_llm_for_air_reading` returns `""` when the provider is
missing, raises, or returns empty content — its comments state that this
empty string means "do not reply". -/
def generate_with_air_reading (no_reply_marker llm_response : String) :
    AirReadingDecision :=
  if pyStrip llm_response = no_reply_marker then
    { should_reply := false, content := none, decision_method := "air_reading" }
  else
    { should_reply := true, content := some (pyStrip llm_response),
      decision_method := "air_reading" }

/-- C6, the failing case: with the default sentinel, an empty (failed)
provider response does not produce a skip — the code answers
`should_reply = true` with empty content, although the spec and the
source's own comments say an empty or failed response means skip.  (The
sentinel case and the non-empty case do behave as claimed.) -/
theorem air_reading_empty_response_bug :
    (generate_with_air_reading air_reading_no_reply_marker "").should_reply = true ∧
      (generate_with_air_reading air_reading_no_reply_marker "").content = some "" ∧
      (generate_with_air_reading air_reading_no_reply_marker
        "[DO_NOT_REPLY]").should_reply = false ∧
      (generate_with_air_reading air_reading_no_reply_marker
        " sure, happy to help ").content = some "sure, happy to help" :=
  ⟨rfl, rfl, rfl, rfl⟩

/-- Stored interaction modes (`state_manager` keys `interaction_modes`);
`observation` is listed for completeness — the source computes it
per message and never stores it. -/
inductive InteractionMode where
  | normal
  | focus
  | observation
  deriving Repr, DecidableEq

/-- The slices of the state manager the focus state machine touches:
`interaction_modes` (missing key reads as "normal"), `focus_targets`
(missing key reads as null) and `last_activity` (missing key reads as 0). -/
structure FocusState where
  interaction_modes : String → InteractionMode
  focus_targets : String → Option String
  last_activity : String → ℚ

/-- Initial state: empty dictionaries, read through their defaults. -/
def focusInit : FocusState :=
  { interaction_modes := fun _ => InteractionMode.normal,
    focus_targets := fun _ => none,
    last_activity := fun _ => 0 }

/-- Dictionary update `d[k] = v`. -/
def setFun {α : Type} (f : String → α) (k : String) (v : α) : String → α :=
  fun x => if x = k then v else f x

/-- The operations that write the focus-mode slices:
`FocusChatManager.enter_focus_mode`, `FocusChatManager.exit_focus_mode`,
`InteractionManager._check_focus_mode_exit` and
`StateManager.update_last_activity`. -/
inductive FocusOp where
  | enter_focus_mode (group target : String) (enabled : Bool)
  | exit_focus_mode (group : String)
  | check_focus_mode_exit (group user : String) (now timeout : ℚ)
  | update_last_activity (key : String) (t : ℚ)

/-- One focus-machine operation, as written in the source. -/
def apply_focus_op (op : FocusOp) (s : FocusState) : FocusState :=
  match op with
  | FocusOp.enter_focus_mode g target enabled =>
      if enabled then
        { s with
          interaction_modes := setFun s.interaction_modes g InteractionMode.focus,
          focus_targets := setFun s.focus_targets g (some target) }
      else s
  | FocusOp.exit_focus_mode g =>
      { s with
        interaction_modes := setFun s.interaction_modes g InteractionMode.normal,
        focus_targets := setFun s.focus_targets g none }
  | FocusOp.check_focus_mode_exit g user now timeout =>
      match s.focus_targets g with
      | some tgt =>
          if tgt ≠ user ∧ timeout < now - s.last_activity tgt then
            { s with
              interaction_modes := setFun s.interaction_modes g InteractionMode.normal,
              focus_targets := setFun s.focus_targets g none }
          else s
      | none => s
  | FocusOp.update_last_activity k t =>
      { s with last_activity := setFun s.last_activity k t }

/-- Fold a sequence of focus operations over a state. -/
def apply_focus_ops (ops : List FocusOp) (s : FocusState) : FocusState :=
  ops.foldl (fun t op => apply_focus_op op t) s

/-- The claimed mode/target coupling: a group in FOCUSED mode has a
(single) non-null target, and a group in NORMAL or OBSERVATION mode has
none. -/
def FocusInv (s : FocusState) : Prop :=
  ∀ g : String,
    (s.interaction_modes g = InteractionMode.focus →
      (s.focus_targets g).isSome = true) ∧
    (s.interaction_modes g = InteractionMode.normal ∨
        s.interaction_modes g = InteractionMode.observation →
      s.focus_targets g = none)

lemma apply_focus_op_inv (op : FocusOp) (s : FocusState) (h : FocusInv s) :
    FocusInv (apply_focus_op op s) := by
  intro g
  cases op with
  | enter_focus_mode g' target enabled =>
    cases enabled with
    | false => exact h g
    | true =>
      by_cases hg : g = g'
      · subst hg
        refine ⟨fun _ => by simp [apply_focus_op, setFun], fun hmode => ?_⟩
        simp [apply_focus_op, setFun] at hmode
      · have h1 : (apply_focus_op (FocusOp.enter_focus_mode g' target true)
            s).interaction_modes g = s.interaction_modes g := by
          simp [apply_focus_op, setFun, hg]
        have h2 : (apply_focus_op (FocusOp.enter_focus_mode g' target true)
            s).focus_targets g = s.focus_targets g := by
          simp [apply_focus_op, setFun, hg]
        rw [h1, h2]
        exact h g
  | exit_focus_mode g' =>
    by_cases hg : g = g'
    · subst hg
      refine ⟨fun hmode => ?_, fun _ => by simp [apply_focus_op, setFun]⟩
      simp [apply_focus_op, setFun] at hmode
    · have h1 : (apply_focus_op (FocusOp.exit_focus_mode g')
          s).interaction_modes g = s.interaction_modes g := by
        simp [apply_focus_op, setFun, hg]
      have h2 : (apply_focus_op (FocusOp.exit_focus_mode g')
          s).focus_targets g = s.focus_targets g := by
        simp [apply_focus_op, setFun, hg]
      rw [h1, h2]
      exact h g
  | check_focus_mode_exit g' user now timeout =>
    rcases htg : s.focus_targets g' with _ | tgt
    · have he : apply_focus_op (FocusOp.check_focus_mode_exit g' user now timeout)
          s = s := by
        simp [apply_focus_op, htg]
      rw [he]
      exact h g
    · by_cases hc : tgt ≠ user ∧ timeout < now - s.last_activity tgt
      · by_cases hg : g = g'
        · subst hg
          refine ⟨fun hmode => ?_,
            fun _ => by simp [apply_focus_op, htg, hc, setFun]⟩
          simp [apply_focus_op, htg, hc, setFun] at hmode
        · have h1 : (apply_focus_op
              (FocusOp.check_focus_mode_exit g' user now timeout)
              s).interaction_modes g = s.interaction_modes g := by
            simp [apply_focus_op, htg, hc, setFun, hg]
          have h2 : (apply_focus_op
              (FocusOp.check_focus_mode_exit g' user now timeout)
              s).focus_targets g = s.focus_targets g := by
            simp [apply_focus_op, htg, hc, setFun, hg]
          rw [h1, h2]
          exact h g
      · have he : apply_focus_op
            (FocusOp.check_focus_mode_exit g' user now timeout) s = s := by
          simp [apply_focus_op, htg, hc]
        rw [he]
        exact h g
  | update_last_activity k t => exact h g

lemma apply_focus_ops_inv (ops : List FocusOp) (s : FocusState)
    (h : FocusInv s) : FocusInv (apply_focus_ops ops s) := by
  induction ops generalizing s with
  | nil => exact h
  | cons op ops ih => exact ih _ (apply_focus_op_inv op s h)

/-- C9: in every state reachable by the focus operations from the initial
state, a group stores at most one focus target (the map yields at most one
per group by construction), FOCUSED groups have a non-null target, and
NORMAL/OBSERVATION groups have none. -/
theorem focus_target_invariant (ops : List FocusOp) :
    FocusInv (apply_focus_ops ops focusInit) := by
  refine apply_focus_ops_inv ops focusInit fun g => ⟨fun hmode => ?_, fun _ => rfl⟩
  exact absurd hmode (by simp [focusInit])

/-- Heartbeat-loop trigger cooldown, `GroupHeartFlow.COOLDOWN_SECONDS`. -/
def COOLDOWN_SECONDS : ℚ := 5

/-- Events observed by one group's trigger timeline: a heartbeat tick of
`_run_loop` (with the `should_trigger_by_focus` outcome) or an explicit
`trigger_now`, which fires unconditionally and also stamps
`last_trigger_ts`. -/
inductive TriggerEvent where
  | tick (now : ℚ) (should_trigger : Bool)
  | manual (now : ℚ)

/-- Time at which an event happens. -/
def eventTime : TriggerEvent → ℚ
  | TriggerEvent.tick now _ => now
  | TriggerEvent.manual now => now

/-- The times at which the heartbeat loop fires a proactive response,
given the running `last_trigger_ts` value `s`: a tick fires only when
`should_trigger_by_focus` holds and the cooldown has elapsed, and every
firing (tick or manual) resets `last_trigger_ts` to its own time. -/
def loop_fires (s : ℚ) : List TriggerEvent → List ℚ
  | [] => []
  | TriggerEvent.tick now should :: evs =>
      if should = true ∧ COOLDOWN_SECONDS ≤ now - s then
        now :: loop_fires now evs
      else loop_fires s evs
  | TriggerEvent.manual now :: evs => loop_fires now evs

lemma chain_le_of_le {a b : ℚ} {l : List ℚ} (hab : a ≤ b)
    (h : List.Chain (· ≤ ·) b l) : List.Chain (· ≤ ·) a l := by
  cases h with
  | nil => exact List.Chain.nil
  | cons hbc hc => exact List.Chain.cons (le_trans hab hbc) hc

lemma loop_fires_lower (evs : List TriggerEvent) (s : ℚ)
    (h : List.Chain (· ≤ ·) s (evs.map eventTime)) :
    ∀ t ∈ loop_fires s evs, s + COOLDOWN_SECONDS ≤ t := by
  induction evs generalizing s with
  | nil => intro t ht; simp [loop_fires] at ht
  | cons ev evs ih =>
    cases ev with
    | tick now should =>
      rcases h with _ | ⟨hs, hch⟩
      have hs' : s ≤ now := hs
      intro t ht
      by_cases hc : should = true ∧ COOLDOWN_SECONDS ≤ now - s
      · rw [loop_fires, if_pos hc] at ht
        rcases List.mem_cons.mp ht with rfl | ht
        · linarith [hc.2]
        · have := ih now hch t ht
          linarith [hc.2]
      · rw [loop_fires, if_neg hc] at ht
        exact ih s (chain_le_of_le hs hch) t ht
    | manual now =>
      rcases h with _ | ⟨hs, hch⟩
      have hs' : s ≤ now := hs
      intro t ht
      rw [loop_fires] at ht
      have := ih now hch t ht
      linarith

lemma loop_fires_gap (evs : List TriggerEvent) (s : ℚ)
    (h : List.Chain (· ≤ ·) s (evs.map eventTime)) :
    List.Pairwise (fun a b => a + COOLDOWN_SECONDS ≤ b) (loop_fires s evs) := by
  induction evs generalizing s with
  | nil => exact List.Pairwise.nil
  | cons ev evs ih =>
    cases ev with
    | tick now should =>
      rcases h with _ | ⟨hs, hch⟩
      by_cases hc : should = true ∧ COOLDOWN_SECONDS ≤ now - s
      · rw [loop_fires, if_pos hc]
        exact List.Pairwise.cons (loop_fires_lower evs now hch) (ih now hch)
      · rw [loop_fires, if_neg hc]
        exact ih s (chain_le_of_le hs hch)
    | manual now =>
      rcases h with _ | ⟨hs, hch⟩
      rw [loop_fires]
      exact ih now hch

/-- C8: along any time-ordered trace of heartbeat ticks and manual
triggers starting from the initial `last_trigger_ts = 0`, any two
loop-initiated proactive triggers of the same group are at least
`COOLDOWN_SECONDS` apart — a tick fires only once the cooldown since the
last recorded trigger timestamp has elapsed. -/
theorem proactive_trigger_cooldown (evs : List TriggerEvent)
    (h : List.Chain (· ≤ ·) 0 (evs.map eventTime)) :
    List.Pairwise (fun a b => a + COOLDOWN_SECONDS ≤ b) (loop_fires 0 evs) :=
  loop_fires_gap evs 0 h

/-- Witness for C8: three ticks at times 15, 30, 45, the middle one with
`should_trigger_by_focus` false. -/
theorem proactive_trigger_cooldown_witness :
    List.Chain (· ≤ ·) 0 (List.map eventTime
      [TriggerEvent.tick 15 true, TriggerEvent.tick 30 false,
        TriggerEvent.tick 45 true]) ∧
      List.Pairwise (fun a b => a + COOLDOWN_SECONDS ≤ b)
        (loop_fires 0 [TriggerEvent.tick 15 true, TriggerEvent.tick 30 false,
          TriggerEvent.tick 45 true]) :=
  have hchain : List.Chain (· ≤ ·) 0 (List.map eventTime
      [TriggerEvent.tick 15 true, TriggerEvent.tick 30 false,
        TriggerEvent.tick 45 true]) := by
    norm_num [List.chain_cons, eventTime]
  ⟨hchain, proactive_trigger_cooldown _ hchain⟩

/-- Stop words excluded by `_hf_similarity`. -/
def hf_stop_words : List String :=
  ["的", "了", "在", "是", "和", "与", "或", "这", "那", "我", "你", "他", "她", "它"]

/-- Token filter of `_hf_similarity`: keep tokens longer than one
character that are not stop words. -/
def hf_filter (ws : List String) : List String :=
  ws.filter (fun w => decide (1 < w.length) && !(hf_stop_words.contains w))

/-- Numerator of the cosine: sum over shared tokens of the products of
their term frequencies (tokens missing from `b` contribute count 0). -/
def hf_dot (a b : List String) : ℕ :=
  (a.dedup.map (fun w => a.count w * b.count w)).sum

/-- Squared norm of the term-frequency vector. -/
def hf_norm_sq (a : List String) : ℕ := hf_dot a a

/-- The squashing function `1 / (1 + exp(-8 * (cosine - 0.6)))`. -/
noncomputable def hf_sigmoid (x : ℝ) : ℝ :=
  1 / (1 + Real.exp (-(8 * (x - 3/5))))

/-- `_hf_similarity` over tokenised texts (tokenisation — jieba or the
regex fallback — happens upstream of the numeric part modelled here; an
empty text tokenises to the empty list): cosine similarity of the two
term-frequency bags after filtering, squashed through the sigmoid, with
the source's three degenerate early returns of 0. -/
noncomputable def hf_similarity (a b : List String) : ℝ :=
  if a = [] ∨ b = [] then 0
  else if hf_filter a = [] ∨ hf_filter b = [] then 0
  else if Real.sqrt (hf_norm_sq (hf_filter a)) = 0 ∨
      Real.sqrt (hf_norm_sq (hf_filter b)) = 0 then 0
  else hf_sigmoid ((hf_dot (hf_filter a) (hf_filter b) : ℝ) /
    (Real.sqrt (hf_norm_sq (hf_filter a)) * Real.sqrt (hf_norm_sq (hf_filter b))))

lemma hf_sigmoid_pos (x : ℝ) : 0 < hf_sigmoid x := by
  unfold hf_sigmoid
  positivity

lemma hf_sigmoid_lt_of_lt {x y : ℝ} (h : x < y) : hf_sigmoid x < hf_sigmoid y := by
  unfold hf_sigmoid
  have h1 : Real.exp (-(8 * (y - 3/5))) < Real.exp (-(8 * (x - 3/5))) :=
    Real.exp_lt_exp.mpr (by linarith)
  have h2 : (0 : ℝ) < 1 + Real.exp (-(8 * (y - 3/5))) := by positivity
  exact one_div_lt_one_div_of_lt h2 (by linarith)

lemma hf_norm_sq_pos (ws : List String) (h : ws ≠ []) : 0 < hf_norm_sq ws := by
  rcases ws with _ | ⟨c, rest⟩
  · exact absurd rfl h
  have hc : c ∈ c :: rest := List.mem_cons_self c rest
  have hcount : 1 ≤ (c :: rest).count c := List.count_pos_iff.mpr hc
  have hterm : (c :: rest).count c * (c :: rest).count c ∈
      ((c :: rest).dedup.map
        (fun w => (c :: rest).count w * (c :: rest).count w)) :=
    List.mem_map_of_mem _ (List.mem_dedup.mpr hc)
  have := List.single_le_sum (fun x _ => Nat.zero_le x) _ hterm
  have h1 : 1 ≤ (c :: rest).count c * (c :: rest).count c :=
    Nat.one_le_iff_ne_zero.mpr (by positivity)
  exact lt_of_lt_of_le (by omega) this

lemma hf_dot_disjoint_zero (x y : List String) (hdisj : ∀ w ∈ y, w ∉ x) :
    hf_dot (hf_filter x) (hf_filter y) = 0 := by
  apply List.sum_eq_zero
  intro n hn
  rcases List.mem_map.mp hn with ⟨w, hw, rfl⟩
  have hwx : w ∈ x := List.mem_of_mem_filter (List.mem_dedup.mp hw)
  have hwy : w ∉ hf_filter y := fun hmem =>
    hdisj w (List.mem_of_mem_filter hmem) hwx
  simp [List.count_eq_zero.mpr hwy]

lemma hf_filter_ne_nil_of_ne {x : List String} (h : hf_filter x ≠ []) :
    x ≠ [] := by
  intro he
  exact h (by simp [he, hf_filter])

lemma hf_similarity_self (x : List String) (h : hf_filter x ≠ []) :
    hf_similarity x x = hf_sigmoid 1 := by
  have hx : x ≠ [] := hf_filter_ne_nil_of_ne h
  have hpos : 0 < hf_norm_sq (hf_filter x) := hf_norm_sq_pos _ h
  have hcast : (0 : ℝ) < (hf_norm_sq (hf_filter x) : ℝ) := by exact_mod_cast hpos
  have hsq : Real.sqrt (hf_norm_sq (hf_filter x)) ≠ 0 :=
    ne_of_gt (Real.sqrt_pos.mpr hcast)
  unfold hf_similarity
  rw [if_neg (by simp [hx]), if_neg (by simp [h]), if_neg (by simp [hsq])]
  congr 1
  rw [Real.mul_self_sqrt hcast.le]
  show (hf_norm_sq (hf_filter x) : ℝ) / (hf_norm_sq (hf_filter x) : ℝ) = 1
  exact div_self (ne_of_gt hcast)

lemma hf_similarity_disjoint (x y : List String) (hx : hf_filter x ≠ [])
    (hdisj : ∀ w ∈ y, w ∉ x) :
    hf_similarity x y = 0 ∨ hf_similarity x y = hf_sigmoid 0 := by
  by_cases hy0 : y = []
  · left
    unfold hf_similarity
    rw [if_pos (Or.inr hy0)]
  by_cases hfy : hf_filter y = []
  · left
    unfold hf_similarity
    rw [if_neg (by simp [hf_filter_ne_nil_of_ne hx, hy0]), if_pos (Or.inr hfy)]
  · right
    have hposx : (0 : ℝ) < (hf_norm_sq (hf_filter x) : ℝ) := by
      exact_mod_cast hf_norm_sq_pos _ hx
    have hposy : (0 : ℝ) < (hf_norm_sq (hf_filter y) : ℝ) := by
      exact_mod_cast hf_norm_sq_pos _ hfy
    have hsqx : Real.sqrt (hf_norm_sq (hf_filter x)) ≠ 0 :=
      ne_of_gt (Real.sqrt_pos.mpr hposx)
    have hsqy : Real.sqrt (hf_norm_sq (hf_filter y)) ≠ 0 :=
      ne_of_gt (Real.sqrt_pos.mpr hposy)
    unfold hf_similarity
    rw [if_neg (by simp [hf_filter_ne_nil_of_ne hx, hy0]),
      if_neg (by simp [hx, hfy]), if_neg (by simp [hsqx, hsqy])]
    rw [hf_dot_disjoint_zero x y hdisj]
    norm_num

/-- C4: the similarity — cosine over stop-word- and single-character-
filtered term-frequency bags, squashed by the sigmoid centered at 0.6
with steepness 8 — gives every text with at least one surviving token a
strictly larger score against itself than against any text sharing no
tokens with it, and returns exactly 0 whenever either side filters down
to nothing (empty or degenerate text). -/
theorem hf_similarity_spec :
    (∀ x y : List String, hf_filter x ≠ [] → (∀ w ∈ y, w ∉ x) →
        hf_similarity x y < hf_similarity x x) ∧
      ∀ u v : List String, hf_filter u = [] ∨ hf_filter v = [] →
        hf_similarity u v = 0 := by
  constructor
  · intro x y hx hdisj
    rw [hf_similarity_self x hx]
    rcases hf_similarity_disjoint x y hx hdisj with h0 | h0 <;> rw [h0]
    · exact hf_sigmoid_pos 1
    · exact hf_sigmoid_lt_of_lt (by norm_num)
  · intro u v huv
    unfold hf_similarity
    by_cases h1 : u = [] ∨ v = []
    · rw [if_pos h1]
    · rw [if_neg h1, if_pos huv]

/-- Witness for C4: the one-token texts "hello" and "world" share no
tokens, and the fully degenerate pair of empty texts scores 0. -/
theorem hf_similarity_spec_witness :
    hf_similarity ["hello"] ["world"] < hf_similarity ["hello"] ["hello"] ∧
      hf_similarity [] [] = 0 :=
  ⟨hf_similarity_spec.1 ["hello"] ["world"] (by decide) (by decide),
    hf_similarity_spec.2 [] [] (by decide)⟩

end GroupChat
